import Mathlib

/-!
# Teams Status RFduino firmware: status rendering pipeline

A shallow embedding of `rfduino_firmware/src/main.cpp`.

* The four globals (`currentStatus`, `currentRed`, `currentGreen`, `currentBlue`) are the
  fields of `State`.
* Every call into the Arduino core or the BLE library (`pinMode`, `analogWrite`, `delay`,
  the `RFduinoBLE` configuration writes and `RFduinoBLE.begin`) is appended to `State.trace`
  in program order, so the output of a run is the list of effects it performed.
* `int` is `Int` (no arithmetic of the program leaves the 32-bit range: the largest value
  computed is the loop counter 260 of `fadeIn`, and the counter of `flashLED` stays at or
  below `times`); `uint8_t` is `Nat`, with the cast `(uint8_t)data[0]` written `% 256`.
-/

namespace TeamsStatus

/-! ## Constants -/

def RED_PIN : Int := 2
def GREEN_PIN : Int := 3
def BLUE_PIN : Int := 4

@[match_pattern] def AVAILABLE : Nat := 0
@[match_pattern] def BUSY : Nat := 1
@[match_pattern] def AWAY : Nat := 2
@[match_pattern] def BE_RIGHT_BACK : Nat := 3
@[match_pattern] def DO_NOT_DISTURB : Nat := 4
@[match_pattern] def FOCUSING : Nat := 5
@[match_pattern] def PRESENTING : Nat := 6
@[match_pattern] def IN_A_MEETING : Nat := 7
@[match_pattern] def IN_A_CALL : Nat := 8
@[match_pattern] def OFFLINE : Nat := 9
@[match_pattern] def UNKNOWN : Nat := 10

/-! ## Effects and state -/

/-- One call into the Arduino core or the BLE library. -/
inductive Effect where
  | pinModeOutput (pin : Int)
  | analogWrite (pin : Int) (value : Int)
  | delay (ms : Int)
  | bleDeviceName (name : String)
  | bleAdvertisementData (payload : String)
  | bleAdvertisementInterval (ms : Int)
  | bleBegin
  deriving DecidableEq, Repr

/-- The globals of the sketch together with the effects performed so far. -/
structure State where
  currentStatus : Nat
  currentRed : Int
  currentGreen : Int
  currentBlue : Int
  trace : List Effect
  deriving DecidableEq, Repr

/-- The globals as initialised at file scope, before `setup` runs. -/
def initial : State :=
  { currentStatus := UNKNOWN, currentRed := 255, currentGreen := 255, currentBlue := 255,
    trace := [] }

/-- Append one effect to the trace. -/
def emit (e : Effect) (s : State) : State :=
  { s with trace := s.trace ++ [e] }

/-! ## The functions of the sketch -/

/-- Function `void setColor(int red, int green, int blue)`. -/
def setColor (red green blue : Int) (s : State) : State :=
  let s := { s with currentRed := red }
  let s := { s with currentGreen := green }
  let s := { s with currentBlue := blue }
  let s := emit (Effect.analogWrite RED_PIN red) s
  let s := emit (Effect.analogWrite GREEN_PIN green) s
  emit (Effect.analogWrite BLUE_PIN blue) s

/-- Function `void updateLED(uint8_t status)`. -/
def updateLED (status : Nat) (s : State) : State :=
  match status with
  | AVAILABLE => setColor 0 255 0 s
  | BUSY | PRESENTING | IN_A_MEETING | IN_A_CALL => setColor 255 0 0 s
  | AWAY | BE_RIGHT_BACK => setColor 255 255 0 s
  | DO_NOT_DISTURB | FOCUSING => setColor 128 0 128 s
  | OFFLINE => setColor 50 50 50 s
  | _ => setColor 255 255 255 s

/-- The loop `for (int i = ...; i < times; i++)` of `flashLED`, entered with counter `i`. -/
def flashLoop (i times delayMs : Int) (s : State) : State :=
  if i < times then
    let s := setColor 255 255 255 s
    let s := emit (Effect.delay delayMs) s
    let s := setColor 0 0 0 s
    let s := emit (Effect.delay delayMs) s
    flashLoop (i + 1) times delayMs s
  else s
termination_by (times - i).toNat
decreasing_by omega

/-- Function `void flashLED(int times, int delayMs)`. -/
def flashLED (times delayMs : Int) (s : State) : State :=
  let prevR := s.currentRed
  let prevG := s.currentGreen
  let prevB := s.currentBlue
  let s := flashLoop 0 times delayMs s
  setColor prevR prevG prevB s

/-- The loop `for (int i = ...; i <= 255; i += 5)` of `fadeIn`, entered with counter `i`. -/
def fadeLoop (i : Int) (s : State) : State :=
  if i ≤ 255 then
    let s := setColor i i i s
    let s := emit (Effect.delay 10) s
    fadeLoop (i + 5) s
  else s
termination_by (256 - i).toNat
decreasing_by omega

/-- Function `void fadeIn()`. -/
def fadeIn (s : State) : State :=
  let s := fadeLoop 0 s
  let s := emit (Effect.delay 500) s
  setColor 255 255 255 s

/-- Function `void setup()`. -/
def setup (s : State) : State :=
  let s := emit (Effect.pinModeOutput RED_PIN) s
  let s := emit (Effect.pinModeOutput GREEN_PIN) s
  let s := emit (Effect.pinModeOutput BLUE_PIN) s
  let s := setColor 255 255 255 s
  let s := emit (Effect.bleDeviceName "RFduino") s
  let s := emit (Effect.bleAdvertisementData "Teams") s
  let s := emit (Effect.bleAdvertisementInterval 300) s
  let s := emit Effect.bleBegin s
  fadeIn s

/-- Handler `void RFduinoBLE_onConnect()`. -/
def RFduinoBLE_onConnect (s : State) : State :=
  let s := flashLED 3 100 s
  updateLED s.currentStatus s

/-- Handler `void RFduinoBLE_onDisconnect()`: the body is empty. -/
def RFduinoBLE_onDisconnect (s : State) : State := s

/-- Handler `void RFduinoBLE_onReceive(char *data, int len)`.  `data` lists the bytes at the pointer;
the radio stack hands over `len` bytes, so `data[0]` is the head of the list whenever
`len > 0` (the fallback `0` of `headD` stands for a read the stack never asks for). -/
def RFduinoBLE_onReceive (data : List Int) (len : Int) (s : State) : State :=
  if len > 0 then
    let status := ((data.headD 0) % 256).toNat
    let s := { s with currentStatus := status }
    updateLED status s
  else s

/-! ## Observations on states and traces -/

/-- An RGB triple (red, green, blue). -/
abbrev Color := Int × Int × Int

/-- The tracked colour: the globals `currentRed`, `currentGreen`, `currentBlue`. -/
def State.color (s : State) : Color := (s.currentRed, s.currentGreen, s.currentBlue)

/-- The status-to-colour table, read off `updateLED`: the colour tracked after
`updateLED(status)`. -/
def ColorPolicy (status : Nat) : Color := (updateLED status initial).color

/-- A call the sketch makes on the output side: `setColor(red, green, blue)` or
`delay(ms)`. -/
inductive Op where
  | setColor (red green blue : Int)
  | delay (ms : Int)
  deriving DecidableEq, Repr

/-- The `setColor` call with the channels of a colour. -/
def Op.ofColor (c : Color) : Op := Op.setColor c.1 c.2.1 c.2.2

/-- The effects one call performs: `setColor` writes the red, green and blue pin in this
order, `delay` waits. -/
def Op.effects : Op → List Effect
  | Op.setColor r g b =>
      [Effect.analogWrite RED_PIN r, Effect.analogWrite GREEN_PIN g,
        Effect.analogWrite BLUE_PIN b]
  | Op.delay ms => [Effect.delay ms]

/-- The effects of a sequence of calls, in order. -/
def render : List Op → List Effect
  | [] => []
  | op :: ops => op.effects ++ render ops

/-- Is the call a `setColor`? -/
def Op.isSetColor : Op → Bool
  | Op.setColor _ _ _ => true
  | Op.delay _ => false

/-- The number of `setColor` calls in a sequence of calls. -/
def setColorCount (ops : List Op) : Nat := (ops.filter Op.isSetColor).length

/-- The milliseconds spent in `delay` by a trace. -/
def totalDelay : List Effect → Int
  | [] => 0
  | Effect.delay ms :: es => ms + totalDelay es
  | _ :: es => totalDelay es

/-- The calls of `times` flash cycles: white, wait, off, wait. -/
def flashCycles (delayMs : Int) : Nat → List Op
  | 0 => []
  | n + 1 =>
      [Op.setColor 255 255 255, Op.delay delayMs, Op.setColor 0 0 0, Op.delay delayMs]
        ++ flashCycles delayMs n

/-- The calls of `n` ramp steps with levels `start`, `start + 5`, ...: each a gray
`setColor` followed by a 10 ms wait. -/
def rampSteps (start : Int) : Nat → List Op
  | 0 => []
  | n + 1 => [Op.setColor start start start, Op.delay 10] ++ rampSteps (start + 5) n

/-- The gray levels 0, 5, ..., 255. -/
def rampLevels : List Int := (List.range 52).map (fun k => 5 * (k : Int))

/-- The tracked colour agrees with the table at the current status (invariant I1). -/
def ColorMatchesStatus (s : State) : Prop := s.color = ColorPolicy s.currentStatus

instance (s : State) : Decidable (ColorMatchesStatus s) := by
  unfold ColorMatchesStatus; infer_instance

/-- A notification delivered by the radio stack. -/
inductive Notification where
  | connect
  | disconnect
  | receive (data : List Int) (len : Int)
  deriving DecidableEq, Repr

/-- The handler the radio stack runs for a notification, to completion. -/
def handle (n : Notification) (s : State) : State :=
  match n with
  | Notification.connect => RFduinoBLE_onConnect s
  | Notification.disconnect => RFduinoBLE_onDisconnect s
  | Notification.receive data len => RFduinoBLE_onReceive data len s

/-- A finite sequence of notifications, each handled to completion before the next. -/
def handleAll (ns : List Notification) (s : State) : State :=
  ns.foldl (fun acc n => handle n acc) s

/-- Perform one output call on the state. -/
def Op.run : Op → State → State
  | Op.setColor r g b, s => TeamsStatus.setColor r g b s
  | Op.delay ms, s => emit (Effect.delay ms) s

/-- Perform a sequence of output calls on the state, in order. -/
def runOps : List Op → State → State
  | [], s => s
  | op :: ops, s => runOps ops (op.run s)

/-- The state with globals of the given values and an empty trace. -/
def stateOf (status : Nat) (c : Color) : State :=
  { currentStatus := status, currentRed := c.1, currentGreen := c.2.1, currentBlue := c.2.2,
    trace := [] }

/-- The pin writes of one `setColor` call with colour `c`: red, green, blue. -/
def colorWrites (c : Color) : List Effect :=
  [Effect.analogWrite RED_PIN c.1, Effect.analogWrite GREEN_PIN c.2.1,
    Effect.analogWrite BLUE_PIN c.2.2]

/-- The step from `s` to `s2` shows colour `c` with a single `setColor` call: the tracked
colour becomes `c`, the trace grows by the three pin writes of `c` and by nothing else, and
`currentStatus` keeps its value. -/
def WritesColor (c : Color) (s s2 : State) : Prop :=
  s2.color = c ∧ s2.trace = s.trace ++ colorWrites c ∧ s2.currentStatus = s.currentStatus

/-- Is the effect a pin write (`analogWrite`)? -/
def Effect.isAnalogWrite : Effect → Bool
  | Effect.analogWrite _ _ => true
  | _ => false

/-- The level a pin is left at by a trace: the value of the last `analogWrite` to the pin,
`none` when the trace never writes it. -/
def pinLevel (pin : Int) (trace : List Effect) : Option Int :=
  trace.foldl
    (fun level e =>
      match e with
      | Effect.analogWrite p v => if p = pin then some v else level
      | _ => level)
    none

/-- The value of a pin write is an 8-bit level, 0..255; other effects carry no level. -/
def Effect.levelInRange : Effect → Bool
  | Effect.analogWrite _ v => decide (0 ≤ v ∧ v ≤ 255)
  | _ => true

/-- The three channels of a colour are 8-bit levels, 0..255. -/
def Color.inRange (c : Color) : Prop :=
  (0 ≤ c.1 ∧ c.1 ≤ 255) ∧ (0 ≤ c.2.1 ∧ c.2.1 ≤ 255) ∧ (0 ≤ c.2.2 ∧ c.2.2 ≤ 255)

/-- The first byte of a receive that passes the guard `len > 0`; `none` for a connect, a
disconnect and a receive with `len <= 0` (or without a byte to read). -/
def Notification.firstByte : Notification → Option Int
  | Notification.receive (d :: _) len => if 0 < len then some d else none
  | _ => none

/-- The radio stack hands over no more bytes than the buffer holds: `len` is at most the
number of bytes at `data`. -/
def Notification.wellFormed : Notification → Bool
  | Notification.receive data len => decide (len ≤ (data.length : Int))
  | _ => true

/-- The first byte of the most recent receive with `len > 0` in a sequence of
notifications (the last one in the list is the most recent), if there is one. -/
def lastReceivedByte (ns : List Notification) : Option Int :=
  ns.reverse.findSome? Notification.firstByte

/-- The status the last message asks for: the first byte of the most recent receive with
`len > 0` read as an unsigned 8-bit value, or `UNKNOWN` when there was none. -/
def lastReceivedStatus (ns : List Notification) : Nat :=
  match lastReceivedByte ns with
  | some d => (d % 256).toNat
  | none => UNKNOWN

/-! ## Basic facts about `setColor` and `updateLED` -/

@[simp] theorem setColor_currentStatus (r g b : Int) (s : State) :
    (setColor r g b s).currentStatus = s.currentStatus := rfl

@[simp] theorem setColor_color (r g b : Int) (s : State) :
    (setColor r g b s).color = (r, g, b) := rfl

@[simp] theorem setColor_trace (r g b : Int) (s : State) :
    (setColor r g b s).trace = s.trace ++ render [Op.setColor r g b] := by
  simp [setColor, emit, render, Op.effects]

@[simp] theorem emit_currentStatus (e : Effect) (s : State) :
    (emit e s).currentStatus = s.currentStatus := rfl

@[simp] theorem emit_color (e : Effect) (s : State) : (emit e s).color = s.color := rfl

@[simp] theorem emit_delay_trace (ms : Int) (s : State) :
    (emit (Effect.delay ms) s).trace = s.trace ++ render [Op.delay ms] := by
  simp [emit, render, Op.effects]

theorem render_append (xs ys : List Op) : render (xs ++ ys) = render xs ++ render ys := by
  induction xs with
  | nil => rfl
  | cons x xs ih => simp [render, ih]

/-- `updateLED` is one `setColor` call with the table colour. -/
theorem updateLED_eq_setColor (status : Nat) (s : State) :
    updateLED status s
      = setColor (ColorPolicy status).1 (ColorPolicy status).2.1 (ColorPolicy status).2.2 s := by
  unfold ColorPolicy updateLED
  split <;> rfl

theorem ColorPolicy_default (status : Nat) (h : 11 ≤ status) :
    ColorPolicy status = (255, 255, 255) := by
  unfold ColorPolicy updateLED
  split <;> first | rfl | (simp [AVAILABLE, BUSY, AWAY, BE_RIGHT_BACK, DO_NOT_DISTURB, FOCUSING, PRESENTING, IN_A_MEETING, IN_A_CALL, OFFLINE] at h)

/-! ## Sequences of output calls -/

/-- A trace determines the calls that produced it: no two sequences of `setColor` and
`delay` calls have the same effects. -/
theorem render_injective : ∀ (xs ys : List Op), render xs = render ys → xs = ys := by
  intro xs
  induction xs with
  | nil =>
    intro ys h
    cases ys with
    | nil => rfl
    | cons y ys => cases y <;> simp [render, Op.effects] at h
  | cons x xs ih =>
    intro ys h
    cases ys with
    | nil => cases x <;> simp [render, Op.effects] at h
    | cons y ys =>
      cases x <;> cases y <;> simp [render, Op.effects] at h
      · obtain ⟨hr, hg, hb, ht⟩ := h
        rw [hr, hg, hb, ih ys ht]
      · obtain ⟨hm, ht⟩ := h
        rw [hm, ih ys ht]

theorem runOps_append (xs ys : List Op) (s : State) :
    runOps (xs ++ ys) s = runOps ys (runOps xs s) := by
  induction xs generalizing s with
  | nil => rfl
  | cons x xs ih => simp [runOps, ih]

theorem runOps_trace (ops : List Op) (s : State) :
    (runOps ops s).trace = s.trace ++ render ops := by
  induction ops generalizing s with
  | nil => simp [runOps, render]
  | cons op ops ih =>
    cases op <;> simp [runOps, Op.run, ih, render, List.append_assoc]

theorem runOps_currentStatus (ops : List Op) (s : State) :
    (runOps ops s).currentStatus = s.currentStatus := by
  induction ops generalizing s with
  | nil => rfl
  | cons op ops ih => cases op <;> simp [runOps, Op.run, ih]

theorem runOps_color_last (ops : List Op) (r g b : Int) (s : State) :
    (runOps (ops ++ [Op.setColor r g b]) s).color = (r, g, b) := by
  simp [runOps_append, runOps, Op.run]

/-- The flash loop entered with counter `i` runs `(times - i).toNat` cycles. -/
theorem flashLoop_eq_runOps (times delayMs : Int) (n : Nat) :
    ∀ (i : Int) (s : State), (times - i).toNat = n →
      flashLoop i times delayMs s = runOps (flashCycles delayMs n) s := by
  induction n with
  | zero =>
    intro i s h
    rw [flashLoop, if_neg (by omega)]
    rfl
  | succ n ih =>
    intro i s h
    rw [flashLoop, if_pos (by omega)]
    simp only []
    rw [ih (i + 1) _ (by omega)]
    rfl

/-- `flashLED` is its flash cycles followed by the restore of the colour saved on entry. -/
theorem flashLED_eq_runOps (times delayMs : Int) (s : State) :
    flashLED times delayMs s
      = runOps (flashCycles delayMs times.toNat ++ [Op.ofColor s.color]) s := by
  unfold flashLED
  simp only []
  rw [flashLoop_eq_runOps times delayMs times.toNat 0 s (by simp), runOps_append]
  rfl

/-- The fade loop entered with counter `i` and `n` steps to go. -/
theorem fadeLoop_eq_runOps (n : Nat) :
    ∀ (i : Int) (s : State), i + 5 * n ≤ 260 → 255 < i + 5 * n →
      fadeLoop i s = runOps (rampSteps i n) s := by
  induction n with
  | zero =>
    intro i s _ h
    rw [fadeLoop, if_neg (by omega)]
    rfl
  | succ n ih =>
    intro i s h1 h2
    rw [fadeLoop, if_pos (by omega)]
    simp only []
    rw [ih (i + 5) _ (by push_cast at h1 ⊢; omega) (by push_cast at h2 ⊢; omega)]
    rfl

/-- `fadeIn` is the 52 ramp steps, the 500 ms hold and the final white. -/
theorem fadeIn_eq_runOps (s : State) :
    fadeIn s = runOps (rampSteps 0 52 ++ [Op.delay 500, Op.setColor 255 255 255]) s := by
  unfold fadeIn
  simp only []
  rw [fadeLoop_eq_runOps 52 0 s (by norm_num) (by norm_num), runOps_append]
  rfl

/-- `RFduinoBLE_onConnect` is three flash cycles, the restore of the colour saved on entry,
and the table colour of the current status. -/
theorem onConnect_eq_runOps (s : State) :
    RFduinoBLE_onConnect s
      = runOps (flashCycles 100 3
          ++ [Op.ofColor s.color, Op.ofColor (ColorPolicy s.currentStatus)]) s := by
  unfold RFduinoBLE_onConnect
  simp only []
  rw [updateLED_eq_setColor, flashLED_eq_runOps, runOps_currentStatus]
  show _ = runOps (flashCycles 100 3 ++ ([Op.ofColor s.color] ++ [Op.ofColor _])) s
  rw [← List.append_assoc, runOps_append _ [Op.ofColor (ColorPolicy s.currentStatus)]]
  rfl

theorem setColor_writes (r g b : Int) (s : State) :
    WritesColor (r, g, b) s (setColor r g b s) :=
  ⟨rfl, by simp [setColor, emit, colorWrites], rfl⟩

theorem updateLED_writes (status : Nat) (s : State) :
    WritesColor (ColorPolicy status) s (updateLED status s) := by
  rw [updateLED_eq_setColor]
  exact setColor_writes _ _ _ s

theorem render_ofColor (c : Color) : render [Op.ofColor c] = colorWrites c := rfl

/-- A receive with `len > 0` stores the byte and shows its table colour. -/
theorem onReceive_pos (data : List Int) (len : Int) (s : State) (h : 0 < len) :
    RFduinoBLE_onReceive data len s
      = updateLED ((data.headD 0) % 256).toNat
          { s with currentStatus := ((data.headD 0) % 256).toNat } := by
  unfold RFduinoBLE_onReceive
  rw [if_pos h]

/-- A receive with `len <= 0` does nothing. -/
theorem onReceive_nonpos (data : List Int) (len : Int) (s : State) (h : len ≤ 0) :
    RFduinoBLE_onReceive data len s = s := by
  unfold RFduinoBLE_onReceive
  rw [if_neg (by omega)]

theorem totalDelay_append (xs ys : List Effect) :
    totalDelay (xs ++ ys) = totalDelay xs + totalDelay ys := by
  induction xs with
  | nil => simp [totalDelay]
  | cons x xs ih => cases x <;> simp [totalDelay, ih, add_assoc]

/-- A connect keeps the status and ends on its table colour. -/
theorem onConnect_globals (s : State) :
    (RFduinoBLE_onConnect s).currentStatus = s.currentStatus
    ∧ (RFduinoBLE_onConnect s).color = ColorPolicy s.currentStatus := by
  rw [onConnect_eq_runOps]
  refine ⟨runOps_currentStatus _ _, ?_⟩
  have h : flashCycles 100 3 ++ [Op.ofColor s.color, Op.ofColor (ColorPolicy s.currentStatus)]
      = (flashCycles 100 3 ++ [Op.ofColor s.color])
          ++ [Op.setColor (ColorPolicy s.currentStatus).1 (ColorPolicy s.currentStatus).2.1
                (ColorPolicy s.currentStatus).2.2] := by
    simp [Op.ofColor]
  rw [h, runOps_color_last]

/-- A receive with `len > 0` ends with the tracked colour at the table colour of the
stored status. -/
theorem onReceive_matches (data : List Int) (len : Int) (s : State) (h : 0 < len) :
    ColorMatchesStatus (RFduinoBLE_onReceive data len s) := by
  rw [onReceive_pos _ _ _ h]
  obtain ⟨h1, _, h3⟩ := updateLED_writes ((data.headD 0) % 256).toNat
    { s with currentStatus := ((data.headD 0) % 256).toNat }
  unfold ColorMatchesStatus
  rw [h1, h3]

/-- Every handler re-establishes or keeps invariant I1. -/
theorem handle_matches (n : Notification) (s : State) (h : ColorMatchesStatus s) :
    ColorMatchesStatus (handle n s) := by
  cases n with
  | connect =>
    obtain ⟨h1, h2⟩ := onConnect_globals s
    show (RFduinoBLE_onConnect s).color = ColorPolicy (RFduinoBLE_onConnect s).currentStatus
    rw [h2, h1]
  | disconnect => exact h
  | receive data len =>
    show ColorMatchesStatus (RFduinoBLE_onReceive data len s)
    by_cases hl : 0 < len
    · exact onReceive_matches data len s hl
    · rw [onReceive_nonpos data len s (by omega)]
      exact h

theorem handleAll_matches (ns : List Notification) (s : State) (h : ColorMatchesStatus s) :
    ColorMatchesStatus (handleAll ns s) := by
  induction ns generalizing s with
  | nil => exact h
  | cons n ns ih => exact ih (handle n s) (handle_matches n s h)

/-- The power-on sequence keeps `currentStatus` and ends on white. -/
theorem setup_globals (s : State) :
    (setup s).currentStatus = s.currentStatus ∧ (setup s).color = (255, 255, 255) := by
  unfold setup
  simp only []
  rw [fadeIn_eq_runOps]
  refine ⟨by rw [runOps_currentStatus]; rfl, ?_⟩
  have h : rampSteps 0 52 ++ [Op.delay 500, Op.setColor 255 255 255]
      = (rampSteps 0 52 ++ [Op.delay 500]) ++ [Op.setColor 255 255 255] := by
    rw [List.append_assoc]; rfl
  rw [h, runOps_color_last]

theorem setColorCount_append (xs ys : List Op) :
    setColorCount (xs ++ ys) = setColorCount xs + setColorCount ys := by
  simp [setColorCount]

theorem setColorCount_flashCycles (delayMs : Int) (n : Nat) :
    setColorCount (flashCycles delayMs n) = 2 * n := by
  induction n with
  | zero => rfl
  | succ n ih =>
    rw [flashCycles, setColorCount_append, ih]
    simp [setColorCount, Op.isSetColor]
    omega

/-- The `setColor` calls of the flash cycles alternate white and off, white first. -/
theorem filter_flashCycles (delayMs : Int) (n : Nat) :
    (flashCycles delayMs n).filter Op.isSetColor
      = (List.replicate n [Op.setColor 255 255 255, Op.setColor 0 0 0]).flatten := by
  induction n with
  | zero => rfl
  | succ n ih =>
    rw [flashCycles, List.filter_append, ih, List.replicate_succ, List.flatten_cons]
    rfl

theorem totalDelay_render_flashCycles (delayMs : Int) (n : Nat) :
    totalDelay (render (flashCycles delayMs n)) = n * 2 * delayMs := by
  induction n with
  | zero => simp [flashCycles, render, totalDelay]
  | succ n ih =>
    rw [flashCycles, render_append, totalDelay_append, ih]
    simp [render, Op.effects, totalDelay]
    ring

/-- The ramp steps are the levels of `rampLevels`, each with its 10 ms wait. -/
theorem rampSteps_eq :
    rampSteps 0 52 = (rampLevels.map (fun i => [Op.setColor i i i, Op.delay 10])).flatten := by
  decide

/-- The effects of the power-on sequence, in program order. -/
theorem setup_trace (s : State) :
    (setup s).trace
      = s.trace
        ++ ([Effect.pinModeOutput RED_PIN, Effect.pinModeOutput GREEN_PIN,
              Effect.pinModeOutput BLUE_PIN]
            ++ colorWrites (255, 255, 255)
            ++ [Effect.bleDeviceName "RFduino", Effect.bleAdvertisementData "Teams",
                Effect.bleAdvertisementInterval 300, Effect.bleBegin]
            ++ render (rampSteps 0 52 ++ [Op.delay 500, Op.setColor 255 255 255])) := by
  unfold setup
  simp only []
  rw [fadeIn_eq_runOps, runOps_trace]
  simp [emit, setColor, colorWrites]

/-- The fade keeps `currentStatus` and ends on white. -/
theorem fadeIn_globals (s : State) :
    (fadeIn s).currentStatus = s.currentStatus ∧ (fadeIn s).color = (255, 255, 255) := by
  rw [fadeIn_eq_runOps]
  refine ⟨runOps_currentStatus _ _, ?_⟩
  have h : rampSteps 0 52 ++ [Op.delay 500, Op.setColor 255 255 255]
      = (rampSteps 0 52 ++ [Op.delay 500]) ++ [Op.setColor 255 255 255] := by
    rw [List.append_assoc]; rfl
  rw [h, runOps_color_last]

/-- The flash keeps `currentStatus` and ends on the colour it was entered with. -/
theorem flashLED_globals (times delayMs : Int) (s : State) :
    (flashLED times delayMs s).currentStatus = s.currentStatus
    ∧ (flashLED times delayMs s).color = s.color := by
  rw [flashLED_eq_runOps]
  exact ⟨runOps_currentStatus _ _, runOps_color_last _ _ _ _ s⟩

/-- Invariant I1 holds after `setup()` and any sequence of notifications. -/
theorem reachable_matches (ns : List Notification) :
    ColorMatchesStatus (handleAll ns (setup initial)) := by
  apply handleAll_matches
  obtain ⟨h1, h2⟩ := setup_globals initial
  unfold ColorMatchesStatus
  rw [h1, h2]
  rfl

/-- A receive with `len > 0` stores the first byte as an unsigned 8-bit value. -/
theorem onReceive_status (d : Int) (rest : List Int) (len : Int) (s : State) (h : 0 < len) :
    (RFduinoBLE_onReceive (d :: rest) len s).currentStatus = (d % 256).toNat := by
  rw [onReceive_pos _ _ _ h]
  exact (updateLED_writes _ _).2.2

/-- A trace that ends with the pin writes of a colour leaves the three pins at the channels
of that colour. -/
theorem pinLevel_append_colorWrites (pre : List Effect) (c : Color) :
    pinLevel RED_PIN (pre ++ colorWrites c) = some c.1
    ∧ pinLevel GREEN_PIN (pre ++ colorWrites c) = some c.2.1
    ∧ pinLevel BLUE_PIN (pre ++ colorWrites c) = some c.2.2 := by
  simp [pinLevel, List.foldl_append, colorWrites, RED_PIN, GREEN_PIN, BLUE_PIN]

/-- Writing the same colour a second time leaves every pin where the first write left it. -/
theorem pinLevel_colorWrites_twice (pin : Int) (pre : List Effect) (c : Color) :
    pinLevel pin (pre ++ colorWrites c ++ colorWrites c)
      = pinLevel pin (pre ++ colorWrites c) := by
  simp only [pinLevel, List.foldl_append, colorWrites, List.foldl_cons, List.foldl_nil]
  split_ifs <;> rfl

/-- What a handler does to `currentStatus`: a receive that passes the guard stores its
first byte, every other notification keeps the status. -/
theorem handle_status (n : Notification) (s : State) (hwf : n.wellFormed = true) :
    (handle n s).currentStatus
      = (match n.firstByte with
          | some d => (d % 256).toNat
          | none => s.currentStatus) := by
  cases n with
  | connect => exact (onConnect_globals s).1
  | disconnect => rfl
  | receive data len =>
    cases data with
    | nil =>
      have hl : len ≤ 0 := by simpa [Notification.wellFormed] using hwf
      show (RFduinoBLE_onReceive [] len s).currentStatus = _
      rw [onReceive_nonpos [] len s hl]
      rfl
    | cons d rest =>
      show (RFduinoBLE_onReceive (d :: rest) len s).currentStatus = _
      by_cases hl : 0 < len
      · rw [onReceive_status d rest len s hl]
        simp [Notification.firstByte, hl]
      · rw [onReceive_nonpos (d :: rest) len s (by omega)]
        simp [Notification.firstByte, hl]

/-- The status after a sequence of notifications is the byte of the most recent receive
that passed the guard, or the status the sequence started from. -/
theorem handleAll_status (ns : List Notification) :
    ∀ (s : State), ns.all Notification.wellFormed = true →
      (handleAll ns s).currentStatus
        = (match lastReceivedByte ns with
            | some d => (d % 256).toNat
            | none => s.currentStatus) := by
  induction ns with
  | nil => intro s _; rfl
  | cons n ns ih =>
    intro s hwf
    rw [List.all_cons, Bool.and_eq_true] at hwf
    show (handleAll ns (handle n s)).currentStatus = _
    rw [ih (handle n s) hwf.2, handle_status n s hwf.1]
    unfold lastReceivedByte
    rw [List.reverse_cons, List.findSome?_append]
    cases List.findSome? Notification.firstByte ns.reverse with
    | some d => rfl
    | none =>
      cases hfb : n.firstByte with
      | some d => simp [List.findSome?, hfb]
      | none => simp [List.findSome?, hfb]

/-- Every handler keeps the trace ending with the pin writes of the tracked colour. -/
theorem handle_trace_ends (n : Notification) (s : State)
    (h : ∃ pre, s.trace = pre ++ colorWrites s.color) :
    ∃ pre, (handle n s).trace = pre ++ colorWrites (handle n s).color := by
  cases n with
  | connect =>
    refine ⟨s.trace ++ render (flashCycles 100 3 ++ [Op.ofColor s.color]), ?_⟩
    show (RFduinoBLE_onConnect s).trace = _ ++ colorWrites (RFduinoBLE_onConnect s).color
    rw [(onConnect_globals s).2, onConnect_eq_runOps, runOps_trace, List.append_assoc,
      ← render_ofColor, ← render_append, List.append_assoc]
    rfl
  | disconnect => exact h
  | receive data len =>
    show ∃ pre, (RFduinoBLE_onReceive data len s).trace
      = pre ++ colorWrites (RFduinoBLE_onReceive data len s).color
    by_cases hl : 0 < len
    · rw [onReceive_pos _ _ _ hl]
      obtain ⟨h1, h2, _⟩ := updateLED_writes ((data.headD 0) % 256).toNat
        { s with currentStatus := ((data.headD 0) % 256).toNat }
      exact ⟨_, by rw [h2, h1]⟩
    · rw [onReceive_nonpos data len s (by omega)]
      exact h

theorem handleAll_trace_ends (ns : List Notification) :
    ∀ (s : State), (∃ pre, s.trace = pre ++ colorWrites s.color) →
      ∃ pre, (handleAll ns s).trace = pre ++ colorWrites (handleAll ns s).color := by
  induction ns with
  | nil => intro s h; exact h
  | cons n ns ih => intro s h; exact ih (handle n s) (handle_trace_ends n s h)

/-- The power-on sequence ends with the pin writes of white, the tracked colour. -/
theorem setup_trace_ends (s : State) :
    ∃ pre, (setup s).trace = pre ++ colorWrites (setup s).color := by
  refine ⟨s.trace
      ++ ([Effect.pinModeOutput RED_PIN, Effect.pinModeOutput GREEN_PIN,
            Effect.pinModeOutput BLUE_PIN]
          ++ colorWrites (255, 255, 255)
          ++ [Effect.bleDeviceName "RFduino", Effect.bleAdvertisementData "Teams",
              Effect.bleAdvertisementInterval 300, Effect.bleBegin]
          ++ render (rampSteps 0 52 ++ [Op.delay 500])), ?_⟩
  rw [setup_trace, (setup_globals s).2]
  have h : rampSteps 0 52 ++ [Op.delay 500, Op.setColor 255 255 255]
      = (rampSteps 0 52 ++ [Op.delay 500]) ++ [Op.setColor 255 255 255] := by
    rw [List.append_assoc]; rfl
  rw [h, render_append]
  simp only [List.append_assoc]
  rfl

/-- Every colour of the table has its channels in 0..255. -/
theorem ColorPolicy_inRange (status : Nat) : Color.inRange (ColorPolicy status) := by
  unfold ColorPolicy updateLED
  split <;> (unfold Color.inRange; decide)

/-- The pin writes of a colour with channels in 0..255 carry levels in 0..255. -/
theorem colorWrites_levelInRange (c : Color) (h : Color.inRange c) :
    (colorWrites c).all Effect.levelInRange = true := by
  obtain ⟨⟨h1, h2⟩, ⟨h3, h4⟩, h5, h6⟩ := h
  simp [colorWrites, Effect.levelInRange, h1, h2, h3, h4, h5, h6]

/-- Every handler keeps all written levels and the tracked colour in 0..255. -/
theorem handle_range (n : Notification) (s : State)
    (ht : s.trace.all Effect.levelInRange = true) (hc : Color.inRange s.color) :
    (handle n s).trace.all Effect.levelInRange = true ∧ Color.inRange (handle n s).color := by
  cases n with
  | connect =>
    show (RFduinoBLE_onConnect s).trace.all Effect.levelInRange = true
      ∧ Color.inRange (RFduinoBLE_onConnect s).color
    rw [(onConnect_globals s).2]
    refine ⟨?_, ColorPolicy_inRange _⟩
    have hr : render (flashCycles 100 3
          ++ [Op.ofColor s.color, Op.ofColor (ColorPolicy s.currentStatus)])
        = render (flashCycles 100 3) ++ (colorWrites s.color
            ++ colorWrites (ColorPolicy s.currentStatus)) := by
      rw [render_append]; rfl
    rw [onConnect_eq_runOps, runOps_trace, hr, List.all_append, List.all_append,
      List.all_append, ht, colorWrites_levelInRange _ hc,
      colorWrites_levelInRange _ (ColorPolicy_inRange _)]
    decide
  | disconnect => exact ⟨ht, hc⟩
  | receive data len =>
    show (RFduinoBLE_onReceive data len s).trace.all Effect.levelInRange = true
      ∧ Color.inRange (RFduinoBLE_onReceive data len s).color
    by_cases hl : 0 < len
    · rw [onReceive_pos _ _ _ hl]
      obtain ⟨h1, h2, _⟩ := updateLED_writes ((data.headD 0) % 256).toNat
        { s with currentStatus := ((data.headD 0) % 256).toNat }
      rw [h1, h2, List.all_append, colorWrites_levelInRange _ (ColorPolicy_inRange _)]
      exact ⟨by simpa using ht, ColorPolicy_inRange _⟩
    · rw [onReceive_nonpos data len s (by omega)]
      exact ⟨ht, hc⟩

theorem handleAll_range (ns : List Notification) :
    ∀ (s : State), s.trace.all Effect.levelInRange = true → Color.inRange s.color →
      (handleAll ns s).trace.all Effect.levelInRange = true
      ∧ Color.inRange (handleAll ns s).color := by
  induction ns with
  | nil => intro s ht hc; exact ⟨ht, hc⟩
  | cons n ns ih =>
    intro s ht hc
    exact ih (handle n s) (handle_range n s ht hc).1 (handle_range n s ht hc).2

/-- The power-on sequence writes levels in 0..255 only and ends on a colour in range. -/
theorem setup_range :
    (setup initial).trace.all Effect.levelInRange = true
    ∧ Color.inRange (setup initial).color := by
  refine ⟨?_, ?_⟩
  · rw [setup_trace]
    decide
  · rw [(setup_globals initial).2]
    unfold Color.inRange
    decide

/-! ## The claims -/

/-- Claim C1 (status-to-colour table): from every state, `updateLED(s)` sets the tracked
colour to, and writes the pins with, green (0,255,0) for s = 0; red (255,0,0) for
s = 1, 6, 7, 8; yellow (255,255,0) for s = 2, 3; purple (128,0,128) for s = 4, 5; and dim
gray (50,50,50) for s = 9.  The enumerators carry exactly these numbers. -/
theorem updateLED_table (s : State) :
    WritesColor (0, 255, 0) s (updateLED 0 s)
    ∧ WritesColor (255, 0, 0) s (updateLED 1 s)
    ∧ WritesColor (255, 0, 0) s (updateLED 6 s)
    ∧ WritesColor (255, 0, 0) s (updateLED 7 s)
    ∧ WritesColor (255, 0, 0) s (updateLED 8 s)
    ∧ WritesColor (255, 255, 0) s (updateLED 2 s)
    ∧ WritesColor (255, 255, 0) s (updateLED 3 s)
    ∧ WritesColor (128, 0, 128) s (updateLED 4 s)
    ∧ WritesColor (128, 0, 128) s (updateLED 5 s)
    ∧ WritesColor (50, 50, 50) s (updateLED 9 s)
    ∧ [AVAILABLE, BUSY, AWAY, BE_RIGHT_BACK, DO_NOT_DISTURB, FOCUSING, PRESENTING,
        IN_A_MEETING, IN_A_CALL, OFFLINE] = [0, 1, 2, 3, 4, 5, 6, 7, 8, 9] :=
  ⟨setColor_writes 0 255 0 s, setColor_writes 255 0 0 s, setColor_writes 255 0 0 s,
    setColor_writes 255 0 0 s, setColor_writes 255 0 0 s, setColor_writes 255 255 0 s,
    setColor_writes 255 255 0 s, setColor_writes 128 0 128 s, setColor_writes 128 0 128 s,
    setColor_writes 50 50 50 s, rfl⟩

/-- Claim C2 (totality and default): for every status value, so for every byte 0..255,
`updateLED` shows a defined colour, the table colour `ColorPolicy status`, with one `setColor` call; and
for every `status` in 11..255 that colour is white (255,255,255), the colour of Unknown
(10), so that `updateLED(status)` acts exactly as `updateLED(UNKNOWN)`. -/
theorem updateLED_total_default (s : State) (status : Nat) :
    WritesColor (ColorPolicy status) s (updateLED status s)
    ∧ UNKNOWN = 10
    ∧ ColorPolicy UNKNOWN = (255, 255, 255)
    ∧ (11 ≤ status →
        ColorPolicy status = ColorPolicy UNKNOWN
        ∧ WritesColor (255, 255, 255) s (updateLED status s)
        ∧ updateLED status s = updateLED UNKNOWN s) := by
  refine ⟨updateLED_writes status s, rfl, rfl, fun h11 => ?_⟩
  have hc : ColorPolicy status = (255, 255, 255) := ColorPolicy_default status h11
  refine ⟨hc, ?_, ?_⟩
  · have := updateLED_writes status s
    rwa [hc] at this
  · rw [updateLED_eq_setColor, hc]
    rfl

/-- Witness for C2 at the out-of-table byte 200, from the initial globals. -/
theorem updateLED_total_default_witness :
    (11 : Nat) ≤ 200
    ∧ (updateLED 200 initial).color = (255, 255, 255)
    ∧ updateLED 200 initial = updateLED 10 initial :=
  ⟨by decide,
    ((updateLED_total_default initial 200).2.2.2 (by decide)).2.1.1,
    ((updateLED_total_default initial 200).2.2.2 (by decide)).2.2⟩

/-- Claim C3 (receive decodes the first byte): for every state and every buffer with first
byte `d` and `len > 0`, `RFduinoBLE_onReceive` sets `currentStatus` to `d` read as an
unsigned 8-bit value (`d mod 256`), shows the table colour of that byte with exactly one
`setColor` call, and the globals and the writes it produces are the same for any other
previous state, any other trailing bytes and any other positive `len`. -/
theorem onReceive_first_byte (s : State) (d : Int) (rest : List Int) (len : Int)
    (h : 0 < len) :
    ((RFduinoBLE_onReceive (d :: rest) len s).currentStatus : Int) = d % 256
    ∧ (RFduinoBLE_onReceive (d :: rest) len s).color
        = ColorPolicy (RFduinoBLE_onReceive (d :: rest) len s).currentStatus
    ∧ (RFduinoBLE_onReceive (d :: rest) len s).trace
        = s.trace ++ colorWrites (ColorPolicy (d % 256).toNat)
    ∧ ∀ (s2 : State) (rest2 : List Int) (len2 : Int), 0 < len2 →
        (RFduinoBLE_onReceive (d :: rest2) len2 s2).currentStatus
          = (RFduinoBLE_onReceive (d :: rest) len s).currentStatus
        ∧ (RFduinoBLE_onReceive (d :: rest2) len2 s2).color
          = (RFduinoBLE_onReceive (d :: rest) len s).color
        ∧ (RFduinoBLE_onReceive (d :: rest2) len2 s2).trace.drop s2.trace.length
          = (RFduinoBLE_onReceive (d :: rest) len s).trace.drop s.trace.length := by
  have key : ∀ (t : State) (r : List Int) (l : Int), 0 < l →
      (RFduinoBLE_onReceive (d :: r) l t).currentStatus = (d % 256).toNat
      ∧ (RFduinoBLE_onReceive (d :: r) l t).color = ColorPolicy (d % 256).toNat
      ∧ (RFduinoBLE_onReceive (d :: r) l t).trace
          = t.trace ++ colorWrites (ColorPolicy (d % 256).toNat) := by
    intro t r l hl
    rw [onReceive_pos _ _ _ hl]
    obtain ⟨h1, h2, h3⟩ := updateLED_writes ((List.headD (d :: r) 0) % 256).toNat
      { t with currentStatus := ((List.headD (d :: r) 0) % 256).toNat }
    exact ⟨h3, h1, h2⟩
  obtain ⟨k1, k2, k3⟩ := key s rest len h
  refine ⟨?_, ?_, k3, ?_⟩
  · rw [k1]
    exact Int.toNat_of_nonneg (Int.emod_nonneg d (by decide))
  · rw [k2, k1]
  · intro s2 rest2 len2 h2
    obtain ⟨m1, m2, m3⟩ := key s2 rest2 len2 h2
    refine ⟨by rw [m1, k1], by rw [m2, k2], ?_⟩
    rw [m3, k3, List.drop_left, List.drop_left]

/-- Witness for C3 (Scenario B): receiving `[0]`, then `[9]`, then `[200]` from the initial
globals sets the output to (0,255,0), then (50,50,50), then (255,255,255). -/
theorem onReceive_first_byte_witness :
    (0 : Int) < 1
    ∧ (RFduinoBLE_onReceive [0] 1 initial).color = (0, 255, 0)
    ∧ (RFduinoBLE_onReceive [9] 1 (RFduinoBLE_onReceive [0] 1 initial)).color = (50, 50, 50)
    ∧ (RFduinoBLE_onReceive [200] 1
        (RFduinoBLE_onReceive [9] 1 (RFduinoBLE_onReceive [0] 1 initial))).color
        = (255, 255, 255)
    ∧ (RFduinoBLE_onReceive [200] 1
        (RFduinoBLE_onReceive [9] 1 (RFduinoBLE_onReceive [0] 1 initial))).trace
        = colorWrites (0, 255, 0) ++ colorWrites (50, 50, 50) ++ colorWrites (255, 255, 255)
    ∧ ((RFduinoBLE_onReceive [200] 1
        (RFduinoBLE_onReceive [9] 1 (RFduinoBLE_onReceive [0] 1 initial))).currentStatus : Int)
        = 200 % 256 :=
  ⟨by decide, by decide, by decide, by decide, by decide,
    (onReceive_first_byte
      (RFduinoBLE_onReceive [9] 1 (RFduinoBLE_onReceive [0] 1 initial)) 200 [] 1
      (by decide)).1⟩

/-- Claim C4 (empty message is a no-op): for every state and every buffer,
`RFduinoBLE_onReceive` with `len = 0`, and likewise with any `len <= 0`, returns the state
it was given: `currentStatus` and the tracked colour are unchanged and nothing is added to
the trace (no `setColor` call, no pin write); the handler is total, so no error is raised. -/
theorem onReceive_empty_noop (s : State) (data : List Int) (len : Int) (h : len ≤ 0) :
    RFduinoBLE_onReceive data len s = s
    ∧ (RFduinoBLE_onReceive data len s).currentStatus = s.currentStatus
    ∧ (RFduinoBLE_onReceive data len s).color = s.color
    ∧ (RFduinoBLE_onReceive data len s).trace = s.trace := by
  rw [onReceive_nonpos data len s h]
  exact ⟨rfl, rfl, rfl, rfl⟩

/-- Witness for C4: an empty buffer with `len = 0` after a receive of Busy. -/
theorem onReceive_empty_noop_witness :
    (0 : Int) ≤ 0
    ∧ RFduinoBLE_onReceive [] 0 (RFduinoBLE_onReceive [1] 1 initial)
        = RFduinoBLE_onReceive [1] 1 initial :=
  ⟨by decide,
    (onReceive_empty_noop (RFduinoBLE_onReceive [1] 1 initial) [] 0 (by decide)).1⟩

/-- Claim C5 (forced re-application): for every state and every status byte `d`, receiving
`d` twice in succession adds exactly two `setColor` calls to the trace, both with the table
colour of `d`; the second receive writes the pins again although `currentStatus` already
equals the byte after the first. -/
theorem onReceive_twice_forced (s : State) (d : Int) (rest rest2 : List Int)
    (len len2 : Int) (h : 0 < len) (h2 : 0 < len2) :
    (RFduinoBLE_onReceive (d :: rest) len s).currentStatus = (d % 256).toNat
    ∧ (RFduinoBLE_onReceive (d :: rest) len s).trace
        = s.trace ++ render [Op.ofColor (ColorPolicy (d % 256).toNat)]
    ∧ (RFduinoBLE_onReceive (d :: rest2) len2
        (RFduinoBLE_onReceive (d :: rest) len s)).trace
        = s.trace ++ render [Op.ofColor (ColorPolicy (d % 256).toNat),
            Op.ofColor (ColorPolicy (d % 256).toNat)]
    ∧ setColorCount [Op.ofColor (ColorPolicy (d % 256).toNat),
        Op.ofColor (ColorPolicy (d % 256).toNat)] = 2
    ∧ (RFduinoBLE_onReceive (d :: rest2) len2
        (RFduinoBLE_onReceive (d :: rest) len s)).trace
        = (RFduinoBLE_onReceive (d :: rest) len s).trace
            ++ colorWrites (ColorPolicy (d % 256).toNat) := by
  have key : ∀ (t : State) (r : List Int) (l : Int), 0 < l →
      (RFduinoBLE_onReceive (d :: r) l t).currentStatus = (d % 256).toNat
      ∧ (RFduinoBLE_onReceive (d :: r) l t).trace
          = t.trace ++ colorWrites (ColorPolicy (d % 256).toNat) := by
    intro t r l hl
    rw [onReceive_pos _ _ _ hl]
    obtain ⟨_, h2, h3⟩ := updateLED_writes ((List.headD (d :: r) 0) % 256).toNat
      { t with currentStatus := ((List.headD (d :: r) 0) % 256).toNat }
    exact ⟨h3, h2⟩
  obtain ⟨a1, a2⟩ := key s rest len h
  obtain ⟨_, b2⟩ := key (RFduinoBLE_onReceive (d :: rest) len s) rest2 len2 h2
  refine ⟨a1, a2, ?_, rfl, b2⟩
  rw [b2, a2, List.append_assoc]
  rfl

/-- Witness for C5: Busy (1) received twice from the initial globals writes red twice. -/
theorem onReceive_twice_forced_witness :
    (0 : Int) < 1
    ∧ (RFduinoBLE_onReceive [1] 1 (RFduinoBLE_onReceive [1] 1 initial)).trace
        = initial.trace ++ render [Op.ofColor (ColorPolicy ((1 : Int) % 256).toNat),
            Op.ofColor (ColorPolicy ((1 : Int) % 256).toNat)]
    ∧ (RFduinoBLE_onReceive [1] 1 (RFduinoBLE_onReceive [1] 1 initial)).trace
        = [Effect.analogWrite 2 255, Effect.analogWrite 3 0, Effect.analogWrite 4 0,
            Effect.analogWrite 2 255, Effect.analogWrite 3 0, Effect.analogWrite 4 0] :=
  ⟨by decide,
    (onReceive_twice_forced initial 1 [] [] 1 1 (by decide) (by decide)).2.2.1,
    by decide⟩

/-- Claim C6 (disconnect invariance): for every state, whatever its `currentStatus` and
tracked colour, `RFduinoBLE_onDisconnect` returns the state unchanged: same
`currentStatus`, same tracked colour, and nothing added to the output trace. -/
theorem onDisconnect_invariance (s : State) :
    RFduinoBLE_onDisconnect s = s
    ∧ (RFduinoBLE_onDisconnect s).currentStatus = s.currentStatus
    ∧ (RFduinoBLE_onDisconnect s).color = s.color
    ∧ (RFduinoBLE_onDisconnect s).trace = s.trace :=
  ⟨rfl, rfl, rfl, rfl⟩

/-- Claim C7 (connect restores after flashing): for every state with `currentStatus = S`,
whatever the tracked colour `c`, after `RFduinoBLE_onConnect` `currentStatus` is still `S`
and the tracked colour is the table colour of `S`.  The output of the call begins with
exactly three flash cycles (white, 100 ms, off, 100 ms), which hold all the delays of the
call (600 ms) and come before the final colour is set: after them `flashLED` restores `c`
and `updateLED` sets the table colour of `S`, the last write of the call.  When `c` is the
table colour of `S` already, as in every reachable state, nothing but the final colour is
written after the three cycles. -/
theorem onConnect_restores_after_flash (s : State) :
    (RFduinoBLE_onConnect s).currentStatus = s.currentStatus
    ∧ (RFduinoBLE_onConnect s).color = ColorPolicy s.currentStatus
    ∧ (RFduinoBLE_onConnect s).trace
        = s.trace ++ render (flashCycles 100 3
            ++ [Op.ofColor s.color, Op.ofColor (ColorPolicy s.currentStatus)])
    ∧ flashCycles 100 3
        = [Op.setColor 255 255 255, Op.delay 100, Op.setColor 0 0 0, Op.delay 100,
            Op.setColor 255 255 255, Op.delay 100, Op.setColor 0 0 0, Op.delay 100,
            Op.setColor 255 255 255, Op.delay 100, Op.setColor 0 0 0, Op.delay 100]
    ∧ (flashCycles 100 3).filter Op.isSetColor
        = (List.replicate 3 [Op.setColor 255 255 255, Op.setColor 0 0 0]).flatten
    ∧ (RFduinoBLE_onConnect s).trace
        = s.trace ++ render (flashCycles 100 3) ++ colorWrites s.color
            ++ colorWrites (ColorPolicy s.currentStatus)
    ∧ totalDelay (RFduinoBLE_onConnect s).trace = totalDelay s.trace + 600
    ∧ (ColorMatchesStatus s →
        (RFduinoBLE_onConnect s).trace
          = s.trace ++ render (flashCycles 100 3
              ++ [Op.ofColor (ColorPolicy s.currentStatus),
                  Op.ofColor (ColorPolicy s.currentStatus)])) := by
  have ht : (RFduinoBLE_onConnect s).trace
      = s.trace ++ render (flashCycles 100 3
          ++ [Op.ofColor s.color, Op.ofColor (ColorPolicy s.currentStatus)]) := by
    rw [onConnect_eq_runOps, runOps_trace]
  have hsplit : render (flashCycles 100 3
        ++ [Op.ofColor s.color, Op.ofColor (ColorPolicy s.currentStatus)])
      = render (flashCycles 100 3) ++ (colorWrites s.color
          ++ colorWrites (ColorPolicy s.currentStatus)) := by
    rw [render_append]; rfl
  refine ⟨(onConnect_globals s).1, (onConnect_globals s).2, ht, rfl, rfl, ?_, ?_, ?_⟩
  · rw [ht, hsplit]
    simp only [List.append_assoc]
  · rw [ht, hsplit, totalDelay_append, totalDelay_append, totalDelay_render_flashCycles]
    simp [colorWrites, totalDelay]
  · intro hm
    have hc : s.color = ColorPolicy s.currentStatus := hm
    rw [ht, hc]

/-- Witness for C7 (Scenario C): after receiving `[7]` the tracked colour is red, the table
colour of status 7; a disconnect and then a connect give exactly three white/off flashes,
after which only red is written (by the restore and by `updateLED`), and end on the final
colour (255,0,0) with the status still 7.  From status 0 with the off-table tracked colour
(1,2,3) a connect ends on the table colour of 0 all the same. -/
theorem onConnect_restores_after_flash_witness :
    ColorMatchesStatus (RFduinoBLE_onDisconnect (RFduinoBLE_onReceive [7] 1 initial))
    ∧ (RFduinoBLE_onConnect
        (RFduinoBLE_onDisconnect (RFduinoBLE_onReceive [7] 1 initial))).trace
      = (RFduinoBLE_onDisconnect (RFduinoBLE_onReceive [7] 1 initial)).trace
          ++ render (flashCycles 100 3
            ++ [Op.ofColor (ColorPolicy
                  (RFduinoBLE_onDisconnect (RFduinoBLE_onReceive [7] 1 initial)).currentStatus),
                Op.ofColor (ColorPolicy
                  (RFduinoBLE_onDisconnect (RFduinoBLE_onReceive [7] 1 initial)).currentStatus)])
    ∧ (RFduinoBLE_onConnect
        (RFduinoBLE_onDisconnect (RFduinoBLE_onReceive [7] 1 initial))).trace
      = colorWrites (255, 0, 0)
          ++ render (flashCycles 100 3 ++ [Op.setColor 255 0 0, Op.setColor 255 0 0])
    ∧ (RFduinoBLE_onConnect
        (RFduinoBLE_onDisconnect (RFduinoBLE_onReceive [7] 1 initial))).color = (255, 0, 0)
    ∧ (RFduinoBLE_onConnect
        (RFduinoBLE_onDisconnect (RFduinoBLE_onReceive [7] 1 initial))).currentStatus = 7
    ∧ (RFduinoBLE_onConnect (stateOf 0 (1, 2, 3))).color
        = ColorPolicy (stateOf 0 (1, 2, 3)).currentStatus
    ∧ ColorPolicy (stateOf 0 (1, 2, 3)).currentStatus = (0, 255, 0) :=
  ⟨by decide,
    (onConnect_restores_after_flash
      (RFduinoBLE_onDisconnect (RFduinoBLE_onReceive [7] 1 initial))).2.2.2.2.2.2.2
      (by decide),
    by rw [onConnect_eq_runOps, runOps_trace]; decide,
    by rw [(onConnect_globals _).2]; decide,
    by rw [(onConnect_globals _).1]; decide,
    (onConnect_restores_after_flash (stateOf 0 (1, 2, 3))).2.1,
    by decide⟩

/-- Claim C8 (flash trace and exact restore): for every state with tracked colour `c` and
every `times >= 0`, `flashLED(times, delayMs)` adds to the trace `times` cycles (white,
wait `delayMs`, off, wait `delayMs`) and then `setColor(c)`: that is `2 * times + 1`
`setColor` calls, white and off alternating `times` times starting with white, then `c`;
on completion the tracked colour is `c` again.  For every `times <= 0` the only write is
the restore of `c`. -/
theorem flashLED_trace_restore (s : State) (times delayMs : Int) (h : 0 ≤ times) :
    (flashLED times delayMs s).trace
        = s.trace ++ render (flashCycles delayMs times.toNat ++ [Op.ofColor s.color])
    ∧ (setColorCount (flashCycles delayMs times.toNat ++ [Op.ofColor s.color]) : Int)
        = 2 * times + 1
    ∧ (flashCycles delayMs times.toNat ++ [Op.ofColor s.color]).filter Op.isSetColor
        = (List.replicate times.toNat [Op.setColor 255 255 255, Op.setColor 0 0 0]).flatten
            ++ [Op.ofColor s.color]
    ∧ (flashLED times delayMs s).color = s.color
    ∧ ∀ (t : Int), t ≤ 0 →
        (flashLED t delayMs s).trace = s.trace ++ colorWrites s.color
        ∧ (flashLED t delayMs s).color = s.color := by
  have hcol : ∀ (t : Int), (flashLED t delayMs s).color = s.color := by
    intro t
    rw [flashLED_eq_runOps]
    exact runOps_color_last _ _ _ _ s
  refine ⟨?_, ?_, ?_, hcol times, ?_⟩
  · rw [flashLED_eq_runOps, runOps_trace]
  · rw [setColorCount_append, setColorCount_flashCycles]
    simp [setColorCount, Op.isSetColor, Op.ofColor]
    omega
  · rw [List.filter_append, filter_flashCycles]
    rfl
  · intro t ht
    refine ⟨?_, hcol t⟩
    rw [flashLED_eq_runOps, runOps_trace, Int.toNat_of_nonpos ht]
    rfl

/-- Witness for C8: `flashLED(2, 100)` after a receive of Away (yellow) issues five
`setColor` calls, white, off, white, off, yellow; `flashLED(-1, 100)` only writes
yellow. -/
theorem flashLED_trace_restore_witness :
    (0 : Int) ≤ 2
    ∧ (flashLED 2 100 (RFduinoBLE_onReceive [2] 1 initial)).trace
        = (RFduinoBLE_onReceive [2] 1 initial).trace
            ++ render (flashCycles 100 (2 : Int).toNat
                ++ [Op.ofColor (RFduinoBLE_onReceive [2] 1 initial).color])
    ∧ flashCycles 100 (2 : Int).toNat
          ++ [Op.ofColor (RFduinoBLE_onReceive [2] 1 initial).color]
        = [Op.setColor 255 255 255, Op.delay 100, Op.setColor 0 0 0, Op.delay 100,
            Op.setColor 255 255 255, Op.delay 100, Op.setColor 0 0 0, Op.delay 100,
            Op.setColor 255 255 0]
    ∧ (flashLED (-1) 100 (RFduinoBLE_onReceive [2] 1 initial)).trace
        = (RFduinoBLE_onReceive [2] 1 initial).trace
            ++ colorWrites (RFduinoBLE_onReceive [2] 1 initial).color :=
  ⟨by decide,
    (flashLED_trace_restore (RFduinoBLE_onReceive [2] 1 initial) 2 100 (by decide)).1,
    by decide,
    ((flashLED_trace_restore (RFduinoBLE_onReceive [2] 1 initial) 2 100
      (by decide)).2.2.2.2 (-1) (by decide)).1⟩

/-- Claim C9 (power-on fade): `fadeIn` issues `setColor(i,i,i)` for exactly the 52 gray
levels i = 0, 5, 10, ..., 255 in increasing order (the last level is 255, none exceeds
255), each followed by a 10 ms delay (520 ms for the ramp), then a 500 ms delay, then
`setColor(255,255,255)`; the delays of the call sum to 1020 ms and the final tracked
colour is white. -/
theorem fadeIn_trace (s : State) :
    (fadeIn s).trace
        = s.trace
          ++ render ((rampLevels.map (fun i => [Op.setColor i i i, Op.delay 10])).flatten
              ++ [Op.delay 500, Op.setColor 255 255 255])
    ∧ rampLevels
        = [0, 5, 10, 15, 20, 25, 30, 35, 40, 45, 50, 55, 60, 65, 70, 75, 80, 85, 90, 95,
            100, 105, 110, 115, 120, 125, 130, 135, 140, 145, 150, 155, 160, 165, 170, 175,
            180, 185, 190, 195, 200, 205, 210, 215, 220, 225, 230, 235, 240, 245, 250, 255]
    ∧ rampLevels.length = 52
    ∧ rampLevels.getLast? = some 255
    ∧ rampLevels.all (fun i => decide (0 ≤ i ∧ i ≤ 255)) = true
    ∧ totalDelay
        (render ((rampLevels.map (fun i => [Op.setColor i i i, Op.delay 10])).flatten)) = 520
    ∧ totalDelay (fadeIn s).trace = totalDelay s.trace + 1020
    ∧ (fadeIn s).color = (255, 255, 255) := by
  have ht : (fadeIn s).trace
      = s.trace
        ++ render ((rampLevels.map (fun i => [Op.setColor i i i, Op.delay 10])).flatten
            ++ [Op.delay 500, Op.setColor 255 255 255]) := by
    rw [fadeIn_eq_runOps, runOps_trace, rampSteps_eq]
  refine ⟨ht, by decide, by decide, by decide, by decide, by decide, ?_, ?_⟩
  · rw [ht, totalDelay_append]
    congr 1
  · rw [fadeIn_eq_runOps]
    have h : rampSteps 0 52 ++ [Op.delay 500, Op.setColor 255 255 255]
        = (rampSteps 0 52 ++ [Op.delay 500]) ++ [Op.setColor 255 255 255] := by
      rw [List.append_assoc]; rfl
    rw [h, runOps_color_last]

/-- Claim C11 (Scenario A, power-on): the globals start at status Unknown (10) and white;
running `setup()` from them writes white, then the fade ramp 0, 5, ..., 255, then white,
and ends with the tracked colour (255,255,255) and `currentStatus` = Unknown (10). -/
theorem setup_power_on :
    initial.currentStatus = UNKNOWN
    ∧ initial.color = (255, 255, 255)
    ∧ (setup initial).trace
        = [Effect.pinModeOutput 2, Effect.pinModeOutput 3, Effect.pinModeOutput 4]
          ++ colorWrites (255, 255, 255)
          ++ [Effect.bleDeviceName "RFduino", Effect.bleAdvertisementData "Teams",
              Effect.bleAdvertisementInterval 300, Effect.bleBegin]
          ++ render ((rampLevels.map (fun i => [Op.setColor i i i, Op.delay 10])).flatten
              ++ [Op.delay 500, Op.setColor 255 255 255])
    ∧ (setup initial).trace.filter Effect.isAnalogWrite
        = colorWrites (255, 255, 255)
          ++ (rampLevels.map (fun i => colorWrites (i, i, i))).flatten
          ++ colorWrites (255, 255, 255)
    ∧ (setup initial).color = (255, 255, 255)
    ∧ (setup initial).currentStatus = UNKNOWN
    ∧ UNKNOWN = 10 := by
  refine ⟨rfl, rfl, ?_, ?_, (setup_globals initial).2, (setup_globals initial).1, rfl⟩
  · rw [setup_trace, rampSteps_eq]
    rfl
  · rw [setup_trace]
    decide

/-- Counterexample for C12 as stated: after a receive of Available (0) the tracked colour
is green, the table colour of the status, so invariant I1 holds; `fadeIn` run from there
leaves status 0 with the tracked colour white, which is not the table colour of 0. -/
theorem fadeIn_keeps_match_counterexample :
    ColorMatchesStatus (RFduinoBLE_onReceive [0] 1 initial)
    ∧ ¬ ColorMatchesStatus (fadeIn (RFduinoBLE_onReceive [0] 1 initial))
    ∧ (fadeIn (RFduinoBLE_onReceive [0] 1 initial)).color = (255, 255, 255)
    ∧ (fadeIn (RFduinoBLE_onReceive [0] 1 initial)).currentStatus = 0
    ∧ ColorPolicy 0 = (0, 255, 0) := by
  obtain ⟨h1, h2⟩ := fadeIn_globals (RFduinoBLE_onReceive [0] 1 initial)
  refine ⟨by decide, ?_, h2, by rw [h1]; decide, by decide⟩
  unfold ColorMatchesStatus
  rw [h1, h2]
  decide

/-- Claim C12, amended (fadeIn and invariant I1): for every state whose `currentStatus` has
the table colour white (Unknown = 10 or an unmapped value, as at power-on, the one place
`fadeIn` is called from), after `fadeIn` the tracked colour equals the table colour of
`currentStatus`; and for every state whatsoever `fadeIn` ends on the tracked colour
(255,255,255) with `currentStatus` unchanged. -/
theorem fadeIn_matches_when_white (s : State)
    (h : ColorPolicy s.currentStatus = (255, 255, 255)) :
    ColorMatchesStatus (fadeIn s)
    ∧ (fadeIn s).color = ColorPolicy (fadeIn s).currentStatus
    ∧ ∀ (t : State),
        (fadeIn t).color = (255, 255, 255) ∧ (fadeIn t).currentStatus = t.currentStatus := by
  have hm : (fadeIn s).color = ColorPolicy (fadeIn s).currentStatus := by
    rw [(fadeIn_globals s).1, (fadeIn_globals s).2, h]
  exact ⟨hm, hm, fun t => ⟨(fadeIn_globals t).2, (fadeIn_globals t).1⟩⟩

/-- Witness for C12: the globals at power-on have status Unknown, whose table colour is
white, and `fadeIn` from them ends with the tracked colour at the table colour. -/
theorem fadeIn_matches_when_white_witness :
    ColorPolicy initial.currentStatus = (255, 255, 255)
    ∧ ColorMatchesStatus (fadeIn initial) :=
  ⟨by decide, (fadeIn_matches_when_white initial (by decide)).1⟩

/-- Claim C13 (the animations do not touch the status): for every state and all arguments,
`flashLED(times, delayMs)` and `fadeIn()` leave `currentStatus` unchanged; `setColor`
likewise changes only the tracked colour and the pin levels (its three pin writes are all
it adds to the trace), never `currentStatus`. -/
theorem animations_keep_status (s : State) (times delayMs red green blue : Int) :
    (flashLED times delayMs s).currentStatus = s.currentStatus
    ∧ (fadeIn s).currentStatus = s.currentStatus
    ∧ (setColor red green blue s).currentStatus = s.currentStatus
    ∧ (setColor red green blue s).color = (red, green, blue)
    ∧ (setColor red green blue s).trace
        = s.trace ++ [Effect.analogWrite RED_PIN red, Effect.analogWrite GREEN_PIN green,
            Effect.analogWrite BLUE_PIN blue] :=
  ⟨(flashLED_globals times delayMs s).1, (fadeIn_globals s).1, rfl, rfl,
    (setColor_writes red green blue s).2.1⟩

/-- Claim C16 (flash blocking time): for every `times >= 0` and `delayMs >= 0`, the delays
issued by `flashLED(times, delayMs)` sum to exactly `times * 2 * delayMs` milliseconds, a
non-negative time; the connect flash `flashLED(3, 100)` blocks for 600 ms. -/
theorem flashLED_blocking_time (s : State) (times delayMs : Int)
    (ht : 0 ≤ times) (hd : 0 ≤ delayMs) :
    totalDelay (flashLED times delayMs s).trace = totalDelay s.trace + times * 2 * delayMs
    ∧ 0 ≤ times * 2 * delayMs
    ∧ totalDelay (flashLED 3 100 s).trace = totalDelay s.trace + 600 := by
  have key : ∀ (t : Int), 0 ≤ t →
      totalDelay (flashLED t delayMs s).trace = totalDelay s.trace + t * 2 * delayMs := by
    intro t h0
    rw [flashLED_eq_runOps, runOps_trace, totalDelay_append, render_append,
      totalDelay_append, totalDelay_render_flashCycles, Int.toNat_of_nonneg h0]
    simp [render, Op.effects, Op.ofColor, totalDelay]
  refine ⟨key times ht, by positivity, ?_⟩
  rw [flashLED_eq_runOps, runOps_trace, totalDelay_append, render_append,
    totalDelay_append, totalDelay_render_flashCycles]
  simp [render, Op.effects, Op.ofColor, totalDelay]

/-- Witness for C16: the connect flash `flashLED(3, 100)` from the initial globals issues
delays of 600 ms in total. -/
theorem flashLED_blocking_time_witness :
    (0 : Int) ≤ 3 ∧ (0 : Int) ≤ 100
    ∧ totalDelay (flashLED 3 100 initial).trace = totalDelay initial.trace + 3 * 2 * 100 :=
  ⟨by decide, by decide, (flashLED_blocking_time initial 3 100 (by decide) (by decide)).1⟩

/-- Claim C14 (connect restores the device state): for every reachable state, that is after
`setup()` and any finite sequence of completed notifications, the state after
`RFduinoBLE_onConnect` has the same `currentStatus` and the same tracked colour as before
the call; consequently a notification that changes `currentStatus` or the settled colour of
a reachable state is a receive with `len > 0`. -/
theorem onConnect_restores_reachable (ns : List Notification) :
    (RFduinoBLE_onConnect (handleAll ns (setup initial))).currentStatus
        = (handleAll ns (setup initial)).currentStatus
    ∧ (RFduinoBLE_onConnect (handleAll ns (setup initial))).color
        = (handleAll ns (setup initial)).color
    ∧ ∀ (n : Notification),
        ((handle n (handleAll ns (setup initial))).currentStatus
            ≠ (handleAll ns (setup initial)).currentStatus
          ∨ (handle n (handleAll ns (setup initial))).color
            ≠ (handleAll ns (setup initial)).color) →
        ∃ (data : List Int) (len : Int), n = Notification.receive data len ∧ 0 < len := by
  have hm : (handleAll ns (setup initial)).color
      = ColorPolicy (handleAll ns (setup initial)).currentStatus := reachable_matches ns
  obtain ⟨h1, h2⟩ := onConnect_globals (handleAll ns (setup initial))
  refine ⟨h1, by rw [h2, hm], ?_⟩
  intro n hn
  cases n with
  | connect =>
    exfalso
    rcases hn with hn | hn
    · exact hn h1
    · exact hn (by show (RFduinoBLE_onConnect _).color = _; rw [h2, hm])
  | disconnect =>
    exfalso
    rcases hn with hn | hn
    · exact hn rfl
    · exact hn rfl
  | receive data len =>
    by_cases hl : 0 < len
    · exact ⟨data, len, rfl, hl⟩
    · exfalso
      have he : handle (Notification.receive data len) (handleAll ns (setup initial))
          = handleAll ns (setup initial) := onReceive_nonpos data len _ (by omega)
      rw [he] at hn
      rcases hn with hn | hn
      · exact hn rfl
      · exact hn rfl

/-- Witness for C14: after `setup()`, a receive of `[7]` and a disconnect, a connect leaves
status and colour as they were, and the receive of `[0]` that changes the status from 7 to
0 is a receive with `len > 0`. -/
theorem onConnect_restores_reachable_witness :
    (RFduinoBLE_onConnect
        (handleAll [Notification.receive [7] 1, Notification.disconnect]
          (setup initial))).color
      = (handleAll [Notification.receive [7] 1, Notification.disconnect]
          (setup initial)).color
    ∧ (handle (Notification.receive [0] 1)
          (handleAll [Notification.receive [7] 1, Notification.disconnect]
            (setup initial))).currentStatus
        ≠ (handleAll [Notification.receive [7] 1, Notification.disconnect]
            (setup initial)).currentStatus
    ∧ ∃ (data : List Int) (len : Int),
        Notification.receive [0] 1 = Notification.receive data len ∧ 0 < len :=
  have hne : (handle (Notification.receive [0] 1)
          (handleAll [Notification.receive [7] 1, Notification.disconnect]
            (setup initial))).currentStatus
        ≠ (handleAll [Notification.receive [7] 1, Notification.disconnect]
            (setup initial)).currentStatus := by
    show (RFduinoBLE_onReceive [0] 1
            (RFduinoBLE_onDisconnect (RFduinoBLE_onReceive [7] 1 (setup initial)))).currentStatus
        ≠ (RFduinoBLE_onDisconnect (RFduinoBLE_onReceive [7] 1 (setup initial))).currentStatus
    rw [onReceive_status 0 [] 1 _ (by decide)]
    show _ ≠ (RFduinoBLE_onReceive [7] 1 (setup initial)).currentStatus
    rw [onReceive_status 7 [] 1 _ (by decide)]
    decide
  ⟨(onConnect_restores_reachable
      [Notification.receive [7] 1, Notification.disconnect]).2.1,
    hne,
    (onConnect_restores_reachable
      [Notification.receive [7] 1, Notification.disconnect]).2.2
      (Notification.receive [0] 1) (Or.inl hne)⟩

/-- Claim C15 (setColor postcondition and idempotence): for every state and every colour
(r,g,b), `setColor(r,g,b)` makes the tracked colour (r,g,b) and leaves the red, green and
blue pin at the levels r, g and b; calling `setColor(r,g,b)` twice in a row leaves the same
tracked colour, the same level on every pin and the same `currentStatus` as calling it
once. -/
theorem setColor_postcondition_idempotent (s : State) (r g b : Int) :
    (setColor r g b s).color = (r, g, b)
    ∧ pinLevel RED_PIN (setColor r g b s).trace = some r
    ∧ pinLevel GREEN_PIN (setColor r g b s).trace = some g
    ∧ pinLevel BLUE_PIN (setColor r g b s).trace = some b
    ∧ (setColor r g b (setColor r g b s)).color = (setColor r g b s).color
    ∧ (setColor r g b (setColor r g b s)).currentStatus = (setColor r g b s).currentStatus
    ∧ ∀ (pin : Int),
        pinLevel pin (setColor r g b (setColor r g b s)).trace
          = pinLevel pin (setColor r g b s).trace := by
  have h1 : (setColor r g b s).trace = s.trace ++ colorWrites (r, g, b) :=
    (setColor_writes r g b s).2.1
  have h2 : (setColor r g b (setColor r g b s)).trace
      = s.trace ++ colorWrites (r, g, b) ++ colorWrites (r, g, b) := by
    rw [(setColor_writes r g b (setColor r g b s)).2.1, h1]
  obtain ⟨p1, p2, p3⟩ := pinLevel_append_colorWrites s.trace (r, g, b)
  refine ⟨rfl, by rw [h1]; exact p1, by rw [h1]; exact p2, by rw [h1]; exact p3, rfl, rfl, ?_⟩
  intro pin
  rw [h2, h1]
  exact pinLevel_colorWrites_twice pin s.trace (r, g, b)

/-- Claim C17 (last message wins): after `setup()` and any finite sequence of completed
connect, disconnect and receive notifications (each receive handing over at most the bytes
its buffer holds), `currentStatus` equals the first byte, read as unsigned 8-bit, of the
most recent receive with `len > 0`, or Unknown (10) if there was none; the tracked colour
and the last levels written to the red, green and blue pin equal the table colour of that
status, however many connects, disconnects, empty receives or earlier messages occurred. -/
theorem last_message_wins (ns : List Notification)
    (hwf : ns.all Notification.wellFormed = true) :
    (handleAll ns (setup initial)).currentStatus = lastReceivedStatus ns
    ∧ (handleAll ns (setup initial)).color = ColorPolicy (lastReceivedStatus ns)
    ∧ pinLevel RED_PIN (handleAll ns (setup initial)).trace
        = some (ColorPolicy (lastReceivedStatus ns)).1
    ∧ pinLevel GREEN_PIN (handleAll ns (setup initial)).trace
        = some (ColorPolicy (lastReceivedStatus ns)).2.1
    ∧ pinLevel BLUE_PIN (handleAll ns (setup initial)).trace
        = some (ColorPolicy (lastReceivedStatus ns)).2.2 := by
  have hs : (handleAll ns (setup initial)).currentStatus = lastReceivedStatus ns := by
    rw [handleAll_status ns (setup initial) hwf, (setup_globals initial).1]
    rfl
  have hc : (handleAll ns (setup initial)).color = ColorPolicy (lastReceivedStatus ns) := by
    rw [← hs]
    exact reachable_matches ns
  obtain ⟨pre, hp⟩ := handleAll_trace_ends ns (setup initial) (setup_trace_ends initial)
  rw [hc] at hp
  obtain ⟨p1, p2, p3⟩ := pinLevel_append_colorWrites pre (ColorPolicy (lastReceivedStatus ns))
  rw [hp]
  exact ⟨hs, hc, p1, p2, p3⟩

/-- Witness for C17: after `setup()`, the notifications receive `[1]`, connect, receive
`[7, 0]` with `len = 2`, an empty receive, disconnect and connect leave the status at 7
(In a meeting) and the colour and the three pins at red (255,0,0). -/
theorem last_message_wins_witness :
    [Notification.receive [1] 1, Notification.connect, Notification.receive [7, 0] 2,
        Notification.receive [] 0, Notification.disconnect,
        Notification.connect].all Notification.wellFormed = true
    ∧ lastReceivedStatus
        [Notification.receive [1] 1, Notification.connect, Notification.receive [7, 0] 2,
          Notification.receive [] 0, Notification.disconnect, Notification.connect] = 7
    ∧ ColorPolicy 7 = (255, 0, 0)
    ∧ (handleAll
        [Notification.receive [1] 1, Notification.connect, Notification.receive [7, 0] 2,
          Notification.receive [] 0, Notification.disconnect, Notification.connect]
        (setup initial)).currentStatus
      = lastReceivedStatus
        [Notification.receive [1] 1, Notification.connect, Notification.receive [7, 0] 2,
          Notification.receive [] 0, Notification.disconnect, Notification.connect]
    ∧ pinLevel RED_PIN (handleAll
        [Notification.receive [1] 1, Notification.connect, Notification.receive [7, 0] 2,
          Notification.receive [] 0, Notification.disconnect, Notification.connect]
        (setup initial)).trace
      = some (ColorPolicy (lastReceivedStatus
        [Notification.receive [1] 1, Notification.connect, Notification.receive [7, 0] 2,
          Notification.receive [] 0, Notification.disconnect, Notification.connect])).1 :=
  ⟨by decide, by decide, by decide,
    (last_message_wins
      [Notification.receive [1] 1, Notification.connect, Notification.receive [7, 0] 2,
        Notification.receive [] 0, Notification.disconnect, Notification.connect]
      (by decide)).1,
    (last_message_wins
      [Notification.receive [1] 1, Notification.connect, Notification.receive [7, 0] 2,
        Notification.receive [] 0, Notification.disconnect, Notification.connect]
      (by decide)).2.2.1⟩

/-- Claim C18 (channel range): `setColor` stores and writes its arguments as they are,
without clamping; yet during `setup()` and during every notification handled after it,
every value passed to `analogWrite` lies in 0..255 (the fade ramp and the connect flash
included, since the trace holds every write of the run), and the values stored in
`currentRed`, `currentGreen`, `currentBlue`, which are those written by the same `setColor`
call, lie in 0..255 as well. -/
theorem channels_in_range (ns : List Notification) :
    (setup initial).trace.all Effect.levelInRange = true
    ∧ (handleAll ns (setup initial)).trace.all Effect.levelInRange = true
    ∧ Color.inRange initial.color
    ∧ Color.inRange (setup initial).color
    ∧ Color.inRange (handleAll ns (setup initial)).color
    ∧ ∀ (r g b : Int) (t : State),
        (setColor r g b t).color = (r, g, b)
        ∧ (setColor r g b t).trace
            = t.trace ++ [Effect.analogWrite RED_PIN r, Effect.analogWrite GREEN_PIN g,
                Effect.analogWrite BLUE_PIN b] := by
  obtain ⟨h1, h2⟩ := setup_range
  obtain ⟨h3, h4⟩ := handleAll_range ns (setup initial) h1 h2
  refine ⟨h1, h3, ?_, h2, h4, fun r g b t => ⟨rfl, (setColor_writes r g b t).2.1⟩⟩
  unfold Color.inRange
  decide

end TeamsStatus
